import Mathlib

/-!
Shallow embedding of the Chatdomi front-end, centred on the realtime voice
session component (`LiveView`), the chat tool toggles (`ChatView`) and the
top-level credential gate (`App`).

Times on the output audio clock are modelled as rationals (`ℚ`); the
browser's `AudioContext.currentTime` at the moment an event is handled is
passed explicitly as a `now` argument.  Refs holding live browser objects
(microphone stream, the two `AudioContext`s, the session promise) are
modelled as booleans recording whether the resource is currently held open.
-/

namespace Chatdomi

/-- One decoded output audio chunk scheduled for playback: its scheduled
start time on the output clock and its decoded duration (both in seconds). -/
structure Segment where
  start : ℚ
  dur : ℚ
deriving DecidableEq, Repr

/-- The mutable state of the `LiveView` component: React state
(`isActive`, `status`, `error`) plus the refs (`nextStartTimeRef`,
`sourcesRef`, `streamRef`, `inputAudioContextRef`, `audioContextRef`,
`sessionPromiseRef`).  `stoppedSegments` records the segments on which
`stop()` has been called by the interruption handler, so that
force-stopping is observable in the model. -/
structure LiveState where
  isActive : Bool
  status : String
  error : Option String
  nextStartTime : ℚ
  sources : List Segment
  stoppedSegments : List Segment
  micOpen : Bool
  inputCtxOpen : Bool
  audioCtxOpen : Bool
  sessionOpen : Bool
deriving DecidableEq, Repr

/-- A message from the live endpoint as far as the `onmessage` handler
inspects it: an optional audio chunk (represented by the decoded buffer's
duration) and the `serverContent.interrupted` flag. -/
structure LiveServerMessage where
  audio : Option ℚ
  interrupted : Bool
deriving DecidableEq, Repr

/-- An audio-only message carrying one chunk of the given duration. -/
def audioMsg (dur : ℚ) : LiveServerMessage :=
  { audio := some dur, interrupted := false }

/-- The audio-chunk branch of `onmessage` (part_000 lines 222-244):
clamp the cursor to `max(nextStartTimeRef, ctx.currentTime)`, start the
new source at the clamped cursor, advance the cursor by the buffer's
duration, and add the source to the active set. -/
def handleAudioChunk (s : LiveState) (dur now : ℚ) : LiveState :=
  let start := max s.nextStartTime now
  { s with
      nextStartTime := start + dur
      sources := s.sources ++ [⟨start, dur⟩] }

/-- The interruption branch of `onmessage` (part_000 lines 247-253):
`stop()` every source in the active set, clear the set, and (when the
output context ref is set) collapse the cursor to `ctx.currentTime`. -/
def handleInterrupted (s : LiveState) (now : ℚ) : LiveState :=
  { s with
      stoppedSegments := s.stoppedSegments ++ s.sources
      sources := []
      nextStartTime := if s.audioCtxOpen then now else s.nextStartTime }

/-- The `onmessage` callback (part_000 lines 219-254): first the audio
branch, guarded on the audio part being present and the output context
ref being set, then the interruption branch. -/
def onmessage (s : LiveState) (msg : LiveServerMessage) (now : ℚ) : LiveState :=
  let s1 :=
    match msg.audio with
    | some dur => if s.audioCtxOpen then handleAudioChunk s dur now else s
    | none => s
  if msg.interrupted then handleInterrupted s1 now else s1

/-- Process a list of messages in arrival order, each paired with the
output-clock time at which it is handled. -/
def runMessages (s : LiveState) : List (LiveServerMessage × ℚ) → LiveState
  | [] => s
  | (m, now) :: rest => runMessages (onmessage s m now) rest

/-- The `onopen` callback (part_000 lines 194-218): the session becomes
active and input capture starts. -/
def onopen (s : LiveState) : LiveState :=
  { s with status := "Connected", isActive := true }

/-- The `onclose` callback (part_000 lines 255-258): it only updates the
status string and the active flag; no resource is released there. -/
def oncloseHandler (s : LiveState) : LiveState :=
  { s with status := "Disconnected", isActive := false }

/-- `stopSession` (part_000 lines 276-288): close the session handle,
stop the microphone tracks, close both audio contexts, mark inactive.
The scheduled-source set `sourcesRef` is not touched. -/
def stopSession (s : LiveState) : LiveState :=
  { s with
      micOpen := false
      inputCtxOpen := false
      audioCtxOpen := false
      isActive := false
      status := "Ready to connect"
      sessionOpen := false }

/-- The `onerror` callback (part_000 lines 259-263): set the error
string, then run `stopSession`. -/
def onerrorHandler (s : LiveState) : LiveState :=
  stopSession { s with error := some "Connection error occurred." }

/-- The ways acquiring the microphone can fail
(`navigator.mediaDevices.getUserMedia` rejecting). -/
inductive MicError
  | PermissionDenied
  | DeviceUnavailable
deriving DecidableEq, Repr

/-- The browser error's `message` property surfaced by the catch block. -/
def errMessage : MicError → String
  | .PermissionDenied => "Permission denied"
  | .DeviceUnavailable => "Requested device not found"

/-- `startSession` (part_000 lines 163-274) up to the point where the
connection callbacks take over.  The code clears the error, creates both
audio contexts, sets `nextStartTimeRef` to the fresh output context's
`currentTime` (line 177), then requests the microphone; if that request
rejects, the catch block (lines 269-273) records the error message and
clears the active flag — it performs no teardown, so the two contexts
just created stay open.  On success the stream and session handles are
held. -/
def startSession (s : LiveState) (mic : Except MicError Unit) (now : ℚ) :
    LiveState :=
  let s1 := { s with
    error := none
    status := "Initializing..."
    inputCtxOpen := true
    audioCtxOpen := true
    nextStartTime := now }
  match mic with
  | .error e => { s1 with error := some (errMessage e), isActive := false }
  | .ok _ => { s1 with micOpen := true, sessionOpen := true }

/-- The start times the scheduling loop assigns, as a pure function of the
initial cursor and the arrival list (duration, arrival clock time):
each chunk starts at `max cursor now` and the cursor advances by its
duration.  `runMessages_audio` below proves this is exactly what
`onmessage` does. -/
def segsFrom (cursor : ℚ) : List (ℚ × ℚ) → List Segment
  | [] => []
  | (dur, now) :: rest =>
      let start := max cursor now
      ⟨start, dur⟩ :: segsFrom (start + dur) rest

/-- The cursor value after scheduling the arrival list from `cursor`. -/
def cursorAfter (cursor : ℚ) : List (ℚ × ℚ) → ℚ
  | [] => cursor
  | (dur, now) :: rest => cursorAfter (max cursor now + dur) rest

/-- "The network keeps up": every chunk of the list arrives no later than
the cursor standing when it is handled, so the clamp `max cursor now`
never moves the cursor. -/
def keepsUpFrom (cursor : ℚ) : List (ℚ × ℚ) → Bool
  | [] => true
  | (dur, now) :: rest => decide (now ≤ cursor) && keepsUpFrom (cursor + dur) rest

/-- The no-delay condition of the back-to-back property: the first chunk
is exempt (its start is clamped to "now" in any case); every later chunk
arrives no later than the cursor left by its predecessor. -/
def keepsUp (cursor : ℚ) : List (ℚ × ℚ) → Bool
  | [] => true
  | (dur, now) :: rest => keepsUpFrom (max cursor now + dur) rest

/-- The output of one `updateVisualizer` call (part_000 lines 291-316):
the mean absolute amplitude of the frame and the derived circle radius. -/
structure VisOutput where
  avg : ℚ
  radius : ℚ
deriving DecidableEq, Repr

/-- `updateVisualizer` (part_000 lines 291-316): sum the absolute sample
values in a loop, divide by the frame length, and use the average to
size a breathing circle.  Only canvas drawing happens with the result. -/
def updateVisualizer (data : List ℚ) : VisOutput :=
  let sum := data.foldl (fun acc x => acc + |x|) (0 : ℚ)
  let avg := sum / (data.length : ℚ)
  { avg := avg, radius := 50 + avg * 500 }

/-- The `onaudioprocess` callback (part_000 lines 202-214): convert the
frame to a PCM blob and send it when the session handle is held, then
update the visualizer.  Returns the new state, the frame sent outward
(if any), and the visualizer output. -/
def onaudioprocess (s : LiveState) (frame : List ℚ) :
    LiveState × Option (List ℚ) × VisOutput :=
  (s, if s.sessionOpen then some frame else none, updateVisualizer frame)

/-- The model identifiers in `ModelType` that the chat view uses. -/
inductive ModelType
  | PRO
  | FLASH
  | FLASH_LITE
  | MAPS_MODEL
deriving DecidableEq, Repr

/-- The tool-toggle and model-selection state of `ChatView`
(ChatView.tsx lines 13-16). -/
structure ChatState where
  selectedMode : ModelType
  useThinking : Bool
  useSearch : Bool
  useMaps : Bool
deriving DecidableEq, Repr

/-- Initial chat state (ChatView.tsx lines 13-16): mode `PRO`, all three
toggles off. -/
def chatInit : ChatState :=
  { selectedMode := .PRO, useThinking := false, useSearch := false,
    useMaps := false }

/-- The user interactions that change the toggle state: the three toggle
buttons (ChatView.tsx lines 139-141) and the model dropdown
(lines 122-129). -/
inductive ChatEvent
  | clickThinking
  | clickSearch
  | clickMaps
  | selectModel (m : ModelType)
deriving DecidableEq, Repr

/-- The state updates performed by each interaction, exactly as the
`onClick` / `onChange` handlers write them: each toggle click flips its
own flag and clears the other two; a manual model selection sets the
mode and clears all three toggles. -/
def chatStep (s : ChatState) : ChatEvent → ChatState
  | .clickThinking =>
      { s with useThinking := !s.useThinking, useSearch := false,
               useMaps := false }
  | .clickSearch =>
      { s with useSearch := !s.useSearch, useThinking := false,
               useMaps := false }
  | .clickMaps =>
      { s with useMaps := !s.useMaps, useThinking := false,
               useSearch := false }
  | .selectModel m =>
      { s with selectedMode := m, useThinking := false, useSearch := false,
               useMaps := false }

/-- Fold a sequence of interactions from a starting state. -/
def chatRun (s : ChatState) : List ChatEvent → ChatState
  | [] => s
  | e :: rest => chatRun (chatStep s e) rest

/-- The request configuration `handleSend` assembles (ChatView.tsx lines
36-58): which model is used, whether a thinking budget is attached, and
which grounding tools are declared. -/
structure RequestConfig where
  model : ModelType
  thinking : Bool
  searchTool : Bool
  mapsTool : Bool
deriving DecidableEq, Repr

/-- The configuration logic of `handleSend` (ChatView.tsx lines 36-58):
an if / else-if chain over the three toggles; the first one set wins,
otherwise the manually selected mode is used with no tools. -/
def handleSendConfig (s : ChatState) : RequestConfig :=
  if s.useThinking then
    { model := .PRO, thinking := true, searchTool := false, mapsTool := false }
  else if s.useSearch then
    { model := .FLASH, thinking := false, searchTool := true, mapsTool := false }
  else if s.useMaps then
    { model := .MAPS_MODEL, thinking := false, searchTool := false,
      mapsTool := true }
  else
    { model := s.selectedMode, thinking := false, searchTool := false,
      mapsTool := false }

/-- At most one of three flags is set. -/
def atMostOne (a b c : Bool) : Bool :=
  !(a && b) && !(a && c) && !(b && c)

/-- What the `App` component renders (App.tsx lines 9-56): either the
bare credential error screen, or the main layout holding the API key
that every view's remote calls use. -/
inductive Render
  | errorScreen (msg : String)
  | mainView (apiKey : String)
deriving DecidableEq, Repr

/-- `App` (App.tsx lines 9-17): read the credential from the environment
with `process.env.API_KEY || ''`; a falsy (absent or empty) value renders
only the error message, otherwise the full layout is rendered with the
key. -/
def App (apiKeyEnv : Option String) : Render :=
  let apiKey := apiKeyEnv.getD ""
  if apiKey = "" then .errorScreen "Error: API_KEY missing."
  else .mainView apiKey

/-- A concrete active session state: fresh clock, empty active set. -/
def s0 : LiveState :=
  { isActive := true, status := "Connected", error := none,
    nextStartTime := 0, sources := [], stoppedSegments := [],
    micOpen := true, inputCtxOpen := true, audioCtxOpen := true,
    sessionOpen := true }

/-- A concrete active session state with one scheduled segment. -/
def sActive : LiveState :=
  { s0 with sources := [⟨0, 1⟩] }

/-- A concrete idle state, before any session is started. -/
def sIdle : LiveState :=
  { isActive := false, status := "Ready to connect", error := none,
    nextStartTime := 0, sources := [], stoppedSegments := [],
    micOpen := false, inputCtxOpen := false, audioCtxOpen := false,
    sessionOpen := false }

/-! ## Supporting lemmas -/

lemma onmessage_audio (s : LiveState) (dur now : ℚ)
    (h : s.audioCtxOpen = true) :
    onmessage s (audioMsg dur) now = handleAudioChunk s dur now := by
  simp [onmessage, audioMsg, h]

lemma handleAudioChunk_audioCtxOpen (s : LiveState) (dur now : ℚ) :
    (handleAudioChunk s dur now).audioCtxOpen = s.audioCtxOpen := rfl

/-- A run of audio-only messages appends exactly the segments computed by
`segsFrom` and leaves the cursor at `cursorAfter`. -/
lemma runMessages_audio (arr : List (ℚ × ℚ)) (s : LiveState)
    (h : s.audioCtxOpen = true) :
    runMessages s (arr.map fun p => (audioMsg p.1, p.2)) =
      { s with
          sources := s.sources ++ segsFrom s.nextStartTime arr
          nextStartTime := cursorAfter s.nextStartTime arr } := by
  induction arr generalizing s with
  | nil => simp [runMessages, segsFrom, cursorAfter]
  | cons p rest ih =>
    obtain ⟨dur, now⟩ := p
    simp only [List.map_cons, runMessages, onmessage_audio _ _ _ h]
    rw [ih _ (by simp [handleAudioChunk, h])]
    simp [handleAudioChunk, segsFrom, cursorAfter]

end Chatdomi

namespace Chatdomi

lemma segsFrom_chain_aux (arr : List (ℚ × ℚ)) :
    ∀ (st d c : ℚ), c = st + d → keepsUpFrom c arr = true →
    List.Chain' (fun a b => b.start = a.start + a.dur)
      (⟨st, d⟩ :: segsFrom c arr) := by
  induction arr with
  | nil => intro st d c _ _; simp [segsFrom]
  | cons p rest ih =>
    intro st d c hc hk
    obtain ⟨d', n'⟩ := p
    simp only [keepsUpFrom, Bool.and_eq_true, decide_eq_true_eq] at hk
    obtain ⟨hn, hk⟩ := hk
    simp only [segsFrom, max_eq_left hn]
    rw [List.chain'_cons]
    exact ⟨hc, ih c d' (c + d') rfl hk⟩

lemma segsFrom_back_to_back (cursor : ℚ) (arr : List (ℚ × ℚ))
    (hk : keepsUp cursor arr = true) :
    List.Chain' (fun a b => b.start = a.start + a.dur)
      (segsFrom cursor arr) := by
  cases arr with
  | nil => simp [segsFrom]
  | cons p rest =>
    obtain ⟨d, n⟩ := p
    simp only [keepsUp] at hk
    simp only [segsFrom]
    exact segsFrom_chain_aux rest (max cursor n) d (max cursor n + d) rfl hk

lemma segsFrom_strict_aux (arr : List (ℚ × ℚ)) :
    ∀ (a : Segment) (c : ℚ), a.start < c → (∀ p ∈ arr, 0 < p.1) →
    List.Chain' (fun x y => x.start < y.start) (a :: segsFrom c arr) := by
  induction arr with
  | nil => intro a c _ _; simp [segsFrom]
  | cons p rest ih =>
    intro a c hac hpos
    obtain ⟨d, n⟩ := p
    simp only [segsFrom]
    rw [List.chain'_cons]
    refine ⟨lt_of_lt_of_le hac (le_max_left _ _), ?_⟩
    exact ih ⟨max c n, d⟩ (max c n + d)
      (lt_add_of_pos_right _ (hpos (d, n) (List.mem_cons_self _ _)))
      (fun q hq => hpos q (List.mem_cons_of_mem _ hq))

lemma segsFrom_strict (cursor : ℚ) (arr : List (ℚ × ℚ))
    (hpos : ∀ p ∈ arr, 0 < p.1) :
    List.Chain' (fun a b => a.start < b.start) (segsFrom cursor arr) := by
  cases arr with
  | nil => simp [segsFrom]
  | cons p rest =>
    obtain ⟨d, n⟩ := p
    simp only [segsFrom]
    exact segsFrom_strict_aux rest ⟨max cursor n, d⟩ (max cursor n + d)
      (lt_add_of_pos_right _ (hpos (d, n) (List.mem_cons_self _ _)))
      (fun q hq => hpos q (List.mem_cons_of_mem _ hq))

/-- C1 (amended): for any sequence of audio chunks handled without an
interruption signal, with positive durations, the scheduled start times
are strictly increasing; when additionally every chunk after the first
arrives no later than the cursor left by its predecessor (the network
keeps up), the starts are exactly back-to-back
(`start(n+1) = start(n) + duration(n)`); chunks of durations 200ms,
150ms, 300ms all arriving at `t0` are scheduled at `t0`, `t0+200ms`,
`t0+350ms`. -/
theorem c1_back_to_back (s : LiveState) (arr : List (ℚ × ℚ))
    (hctx : s.audioCtxOpen = true)
    (hpos : ∀ p ∈ arr, 0 < p.1) :
    (runMessages s (arr.map fun p => (audioMsg p.1, p.2))).sources
        = s.sources ++ segsFrom s.nextStartTime arr ∧
    List.Chain' (fun a b => a.start < b.start)
      (segsFrom s.nextStartTime arr) ∧
    (keepsUp s.nextStartTime arr = true →
      List.Chain' (fun a b => b.start = a.start + a.dur)
        (segsFrom s.nextStartTime arr)) ∧
    ∀ t0 : ℚ,
      (segsFrom t0 [(1/5, t0), (3/20, t0), (3/10, t0)]).map Segment.start
        = [t0, t0 + 1/5, t0 + 7/20] := by
  refine ⟨?_, segsFrom_strict _ _ hpos,
    fun hkeep => segsFrom_back_to_back _ _ hkeep, ?_⟩
  · rw [runMessages_audio arr s hctx]
  · intro t0
    have h2 : max (t0 + 1/5) t0 = t0 + 1/5 := max_eq_left (by linarith)
    have h3 : max (t0 + 1/5 + 3/20) t0 = t0 + 1/5 + 3/20 :=
      max_eq_left (by linarith)
    simp only [segsFrom, List.map_cons, List.map_nil, max_self, h2, h3,
      List.cons.injEq, and_true, true_and]
    ring_nf

/-- C1 witness: three chunks of 200ms, 150ms, 300ms all arriving at
clock time 0 on a fresh session. -/
theorem c1_back_to_back_witness :
    (runMessages s0 ([((1 : ℚ)/5, (0 : ℚ)), (3/20, 0), (3/10, 0)].map
        fun p => (audioMsg p.1, p.2))).sources
      = s0.sources ++ segsFrom s0.nextStartTime
          [((1 : ℚ)/5, (0 : ℚ)), (3/20, 0), (3/10, 0)] ∧
    List.Chain' (fun a b => a.start < b.start)
      (segsFrom s0.nextStartTime [((1 : ℚ)/5, (0 : ℚ)), (3/20, 0), (3/10, 0)]) ∧
    (keepsUp s0.nextStartTime [((1 : ℚ)/5, (0 : ℚ)), (3/20, 0), (3/10, 0)]
        = true →
      List.Chain' (fun a b => b.start = a.start + a.dur)
        (segsFrom s0.nextStartTime
          [((1 : ℚ)/5, (0 : ℚ)), (3/20, 0), (3/10, 0)])) ∧
    ∀ t0 : ℚ,
      (segsFrom t0 [(1/5, t0), (3/20, t0), (3/10, t0)]).map Segment.start
        = [t0, t0 + 1/5, t0 + 7/20] :=
  c1_back_to_back s0 [((1 : ℚ)/5, (0 : ℚ)), (3/20, 0), (3/10, 0)]
    rfl
    (by
      intro p hp
      simp only [List.mem_cons, List.not_mem_nil, or_false] at hp
      rcases hp with h | h | h <;> rw [h] <;> norm_num)

/-- C1 counterexample to the unamended claim: with no interruption, a
second chunk arriving after the first finished playing (clock at 5 while
the cursor stands at 1) is clamped to clock time 5, so the two starts are
0 and 5 — not back-to-back. -/
theorem c1_counterexample :
    (runMessages s0 [(audioMsg 1 , 0), (audioMsg 1 , 5)]).sources
        = [⟨0, 1⟩, ⟨5, 1⟩] ∧
    ¬ List.Chain' (fun a b => b.start = a.start + a.dur)
        ((runMessages s0 [(audioMsg 1 , 0), (audioMsg 1 , 5)]).sources) := by
  have hrun : (runMessages s0 [(audioMsg 1 , 0), (audioMsg 1 , 5)]).sources
      = [⟨0, 1⟩, ⟨5, 1⟩] := by
    simp [runMessages, onmessage, audioMsg, handleAudioChunk, s0, max_self,
      show max (0 + 1 : ℚ) 5 = 5 from max_eq_right (by norm_num),
      show max (1 : ℚ) 5 = 5 from max_eq_right (by norm_num)]
  refine ⟨hrun, ?_⟩
  rw [hrun]
  simp [List.chain'_cons]

/-- C2: each inbound chunk is scheduled at `max(cursor, outputClockNow)`,
the cursor is then advanced by exactly the chunk's duration, the cursor's
initial value at session start is the output-clock time, and no chunk
starts in the past. -/
theorem c2_clamp_and_advance (s : LiveState) (dur now t : ℚ)
    (mic : Except MicError Unit) (hctx : s.audioCtxOpen = true) :
    (onmessage s (audioMsg dur) now).sources
        = s.sources ++ [⟨max s.nextStartTime now, dur⟩] ∧
    (onmessage s (audioMsg dur) now).nextStartTime
        = max s.nextStartTime now + dur ∧
    now ≤ max s.nextStartTime now ∧
    (startSession s mic t).nextStartTime = t := by
  refine ⟨?_, ?_, le_max_right _ _, ?_⟩
  · simp [onmessage_audio _ _ _ hctx, handleAudioChunk]
  · simp [onmessage_audio _ _ _ hctx, handleAudioChunk]
  · cases mic <;> simp [startSession]

/-- C2 witness at a concrete state and chunk. -/
theorem c2_clamp_and_advance_witness :
    (onmessage s0 (audioMsg 1 ) 2).sources
        = s0.sources ++ [⟨max s0.nextStartTime 2, 1⟩] ∧
    (onmessage s0 (audioMsg 1 ) 2).nextStartTime
        = max s0.nextStartTime 2 + 1 ∧
    (2 : ℚ) ≤ max s0.nextStartTime 2 ∧
    (startSession s0 (.ok ()) 3).nextStartTime = 3 :=
  c2_clamp_and_advance s0 1 2 3 (.ok ()) rfl

/-- C3: processing a message carrying the interruption flag leaves the
scheduled-segment set empty, collapses the cursor to the current
output-clock time, and force-stops every previously pending segment. -/
theorem c3_interrupt_clears (s : LiveState) (msg : LiveServerMessage)
    (now : ℚ) (hint : msg.interrupted = true)
    (hctx : s.audioCtxOpen = true) :
    (onmessage s msg now).sources = [] ∧
    (onmessage s msg now).nextStartTime = now ∧
    ∀ seg ∈ s.sources, seg ∈ (onmessage s msg now).stoppedSegments := by
  cases hm : msg.audio with
  | none =>
    refine ⟨?_, ?_, ?_⟩ <;>
      simp [onmessage, hm, hint, handleInterrupted, hctx]
    intro seg hseg
    exact Or.inr hseg
  | some dur =>
    refine ⟨?_, ?_, ?_⟩ <;>
      simp [onmessage, hm, hint, hctx, handleAudioChunk, handleInterrupted]
    intro seg hseg
    exact Or.inr (Or.inl hseg)

/-- C3 witness: interruption at a state with one pending segment. -/
theorem c3_interrupt_clears_witness :
    (onmessage sActive ⟨none, true⟩ 4).sources = [] ∧
    (onmessage sActive ⟨none, true⟩ 4).nextStartTime = 4 ∧
    ∀ seg ∈ sActive.sources,
      seg ∈ (onmessage sActive ⟨none, true⟩ 4).stoppedSegments :=
  c3_interrupt_clears sActive ⟨none, true⟩ 4 rfl rfl

/-- C4: across any event handled by `onmessage`, the cursor never
decreases unless the message carries the interruption flag, in which case
it is reset exactly to the current output-clock time. -/
theorem c4_cursor_monotone (s : LiveState) (msg : LiveServerMessage)
    (now : ℚ) (hctx : s.audioCtxOpen = true)
    (hdur : ∀ d ∈ msg.audio, 0 ≤ d) :
    (msg.interrupted = false →
        s.nextStartTime ≤ (onmessage s msg now).nextStartTime) ∧
    (msg.interrupted = true → (onmessage s msg now).nextStartTime = now) := by
  constructor <;> intro hint <;> cases hm : msg.audio <;>
    simp [onmessage, hint, hm, hctx, handleAudioChunk, handleInterrupted]
  exact le_trans (le_max_left _ _)
    (le_add_of_nonneg_right (hdur _ (by rw [hm]; rfl)))

/-- C4 witness at a concrete state and chunk message. -/
theorem c4_cursor_monotone_witness :
    ((audioMsg 1 ).interrupted = false →
        s0.nextStartTime ≤ (onmessage s0 (audioMsg 1 ) 0).nextStartTime) ∧
    ((audioMsg 1 ).interrupted = true →
        (onmessage s0 (audioMsg 1 ) 0).nextStartTime = 0) :=
  c4_cursor_monotone s0 (audioMsg 1 ) 0 rfl (by
    intro d hd
    simp only [audioMsg, Option.mem_def, Option.some.injEq] at hd
    rw [← hd]
    norm_num)

/-- C5 (amended): user-initiated stop and the transport-error handler
release the microphone, close both audio contexts and the session handle,
and end inactive; the remote-close handler only marks the session
disconnected and inactive, releasing neither the microphone nor the
contexts; `stopSession` leaves the scheduled-segment set untouched. -/
theorem c5_stop_triggers (s : LiveState) :
    ((stopSession s).micOpen = false ∧
     (stopSession s).inputCtxOpen = false ∧
     (stopSession s).audioCtxOpen = false ∧
     (stopSession s).isActive = false ∧
     (stopSession s).sessionOpen = false ∧
     (stopSession s).sources = s.sources) ∧
    ((onerrorHandler s).micOpen = false ∧
     (onerrorHandler s).inputCtxOpen = false ∧
     (onerrorHandler s).audioCtxOpen = false ∧
     (onerrorHandler s).isActive = false) ∧
    ((oncloseHandler s).isActive = false ∧
     (oncloseHandler s).micOpen = s.micOpen ∧
     (oncloseHandler s).inputCtxOpen = s.inputCtxOpen ∧
     (oncloseHandler s).audioCtxOpen = s.audioCtxOpen ∧
     (oncloseHandler s).sources = s.sources) := by
  refine ⟨⟨rfl, rfl, rfl, rfl, rfl, rfl⟩, ⟨rfl, rfl, rfl, rfl⟩,
    rfl, rfl, rfl, rfl, rfl⟩

/-- C5 counterexample to the unamended claim: on the remote-close
trigger, from an active state with the microphone and both contexts
open, the handler leaves all three still open (nothing is released), and
user-initiated stop does not discard the scheduled segment. -/
theorem c5_counterexample :
    (oncloseHandler sActive).isActive = false ∧
    (oncloseHandler sActive).micOpen = true ∧
    (oncloseHandler sActive).inputCtxOpen = true ∧
    (oncloseHandler sActive).audioCtxOpen = true ∧
    (stopSession sActive).sources = [⟨0, 1⟩] :=
  ⟨rfl, rfl, rfl, rfl, rfl⟩

/-- C6 (amended): the transport-error handler surfaces the error and
performs full teardown, ending inactive; but an error during session
start (microphone acquisition failing) only records the error message
and clears the active flag, leaving the two audio contexts created
earlier in `startSession` open — no teardown runs on that path. -/
theorem c6_error_paths (s : LiveState) (e : MicError) (now : ℚ) :
    ((onerrorHandler s).error = some "Connection error occurred." ∧
     (onerrorHandler s).isActive = false ∧
     (onerrorHandler s).micOpen = false ∧
     (onerrorHandler s).inputCtxOpen = false ∧
     (onerrorHandler s).audioCtxOpen = false) ∧
    ((startSession s (.error e) now).error = some (errMessage e) ∧
     (startSession s (.error e) now).isActive = false ∧
     (startSession s (.error e) now).inputCtxOpen = true ∧
     (startSession s (.error e) now).audioCtxOpen = true) :=
  ⟨⟨rfl, rfl, rfl, rfl, rfl⟩, rfl, rfl, rfl, rfl⟩

/-- C6 counterexample to the unamended claim: starting from idle with the
microphone permission denied, the error is reported while both freshly
created audio contexts remain open — partial-session state stays live
after the error is surfaced. -/
theorem c6_counterexample :
    (startSession sIdle (.error .PermissionDenied) 0).error
        = some "Permission denied" ∧
    (startSession sIdle (.error .PermissionDenied) 0).inputCtxOpen = true ∧
    (startSession sIdle (.error .PermissionDenied) 0).audioCtxOpen = true :=
  ⟨rfl, rfl, rfl⟩

/-- C7: when microphone acquisition fails (permission denied or device
unavailable), `startSession` reports that error's message and the
session stays inactive, with no microphone handle and no session handle
acquired. -/
theorem c7_mic_denied (s : LiveState) (e : MicError) (now : ℚ) :
    (startSession s (.error e) now).error = some (errMessage e) ∧
    (startSession s (.error e) now).isActive = false ∧
    (startSession s (.error e) now).micOpen = s.micOpen ∧
    (startSession s (.error e) now).sessionOpen = s.sessionOpen :=
  ⟨rfl, rfl, rfl, rfl⟩

/-- C8: an absent (or empty) credential renders only the error screen,
while a present non-empty credential renders the main layout carrying
the key. -/
theorem c8_api_key_gate (k : String) (hk : k ≠ "") :
    App none = .errorScreen "Error: API_KEY missing." ∧
    App (some "") = .errorScreen "Error: API_KEY missing." ∧
    App (some k) = .mainView k := by
  refine ⟨rfl, rfl, ?_⟩
  simp [App, hk]

/-- C8 witness with a concrete non-empty key. -/
theorem c8_api_key_gate_witness :
    App none = .errorScreen "Error: API_KEY missing." ∧
    App (some "") = .errorScreen "Error: API_KEY missing." ∧
    App (some "k1") = .mainView "k1" :=
  c8_api_key_gate "k1" (by decide)

lemma foldl_abs_sum (l : List ℚ) (a : ℚ) :
    l.foldl (fun acc x => acc + |x|) a = a + (l.map fun x => |x|).sum := by
  induction l generalizing a with
  | nil => simp
  | cons x xs ih => simp [List.foldl_cons, ih, add_assoc]

/-- C9: the visualizer's loudness scalar is the mean absolute amplitude
of the outbound frame (sum of absolute sample values divided by the
sample count), and the `onaudioprocess` callback leaves the session
state unchanged. -/
theorem c9_visualizer_mean (s : LiveState) (frame : List ℚ)
    (h : 0 < frame.length) :
    (onaudioprocess s frame).2.2.avg
        = (frame.map fun x => |x|).sum / (frame.length : ℚ) ∧
    (onaudioprocess s frame).1 = s := by
  refine ⟨?_, rfl⟩
  simp [onaudioprocess, updateVisualizer, foldl_abs_sum]

/-- C9 witness on a concrete two-sample frame. -/
theorem c9_visualizer_mean_witness :
    (onaudioprocess s0 [(1 : ℚ)/2, -(1 : ℚ)/4]).2.2.avg
        = ([(1 : ℚ)/2, -(1 : ℚ)/4].map fun x => |x|).sum
            / (([(1 : ℚ)/2, -(1 : ℚ)/4].length : ℚ)) ∧
    (onaudioprocess s0 [(1 : ℚ)/2, -(1 : ℚ)/4]).1 = s0 :=
  c9_visualizer_mean s0 [(1 : ℚ)/2, -(1 : ℚ)/4] (by norm_num)

lemma chatStep_atMostOne (s : ChatState) (e : ChatEvent) :
    atMostOne (chatStep s e).useThinking (chatStep s e).useSearch
      (chatStep s e).useMaps = true := by
  cases e <;> simp [chatStep, atMostOne]

lemma chatRun_atMostOne_aux (es : List ChatEvent) :
    ∀ s : ChatState,
      atMostOne s.useThinking s.useSearch s.useMaps = true →
      atMostOne (chatRun s es).useThinking (chatRun s es).useSearch
        (chatRun s es).useMaps = true := by
  induction es with
  | nil => intro s hs; exact hs
  | cons e rest ih =>
    intro s _
    exact ih (chatStep s e) (chatStep_atMostOne s e)

/-- C10: the three chat tool toggles are mutually exclusive: after any
toggle click or manual model selection at most one of thinking, search
and maps is on; from the initial state every interaction sequence keeps
at most one on; and the request configuration built by `handleSend`
carries at most one of the thinking budget, the search tool and the maps
tool. -/
theorem c10_toggles_exclusive (s : ChatState) (e : ChatEvent)
    (es : List ChatEvent) :
    atMostOne (chatStep s e).useThinking (chatStep s e).useSearch
      (chatStep s e).useMaps = true ∧
    atMostOne (chatRun chatInit es).useThinking
      (chatRun chatInit es).useSearch (chatRun chatInit es).useMaps = true ∧
    atMostOne (handleSendConfig s).thinking (handleSendConfig s).searchTool
      (handleSendConfig s).mapsTool = true := by
  refine ⟨chatStep_atMostOne s e, chatRun_atMostOne_aux es chatInit rfl, ?_⟩
  cases hT : s.useThinking <;> cases hS : s.useSearch <;>
    cases hM : s.useMaps <;> simp [handleSendConfig, hT, hS, hM, atMostOne]

end Chatdomi
